import Mathlib

/-!
Verification development for the marketmap scraper (`marketmap.py`).

The expression engine (lexer, recursive-descent parser, `KeywordFilter`),
the orchestrator (`ScraperManager`), and the Allegro adapter's fetch state
machine (`_fetch_with_session` / `search`) are embedded shallowly below.
Network responses and HTML extraction are abstracted as oracle parameters
(the spec treats per-source HTML field extraction as outside the core
contract); everything else follows the Python source line by line.
Python floats carrying prices are modelled as rationals, and Python's
`threading.Event` cancellation token as a boolean that is constant for
the duration of one run (the token is set at most once, by the caller).
-/

namespace Marketmap

/-- Characters of `s` lowercased; models Python `s.lower()` on the ASCII
strings that the program compares (Python and Lean agree on ASCII). -/
def lowerChars (s : String) : List Char := s.data.map Char.toLower

/-- `needle` occurs contiguously inside `haystack`; models Python's
`needle in haystack` on strings. -/
def isSubList (needle : List Char) : List Char → Bool
  | [] => needle.isEmpty
  | c :: rest => needle.isPrefixOf (c :: rest) || isSubList needle rest

/-- Python `kw.lower() in text.lower()`: case-insensitive substring test. -/
def containsCI (kw text : String) : Bool :=
  isSubList (lowerChars kw) (lowerChars text)

/-- Python `s.lower()` as a `String`. -/
def strLower (s : String) : String := String.mk (lowerChars s)

/-- Python `s.strip()`: drop whitespace from both ends (ASCII whitespace;
the program never strips exotic Unicode spaces). -/
def pyStrip (s : String) : String :=
  String.mk ((((s.data.dropWhile Char.isWhitespace).reverse).dropWhile Char.isWhitespace).reverse)

/-! ### Lexer (`KeywordExpressionLexer`) -/

inductive TokenType where
  | KEYWORD
  | AND
  | OR
  | LPAREN
  | RPAREN
  | EOF
deriving DecidableEq, Repr

/-- The string constants of the Python `TokenType` class. -/
def TokenType.name : TokenType → String
  | .KEYWORD => "KEYWORD"
  | .AND => "AND"
  | .OR => "OR"
  | .LPAREN => "LPAREN"
  | .RPAREN => "RPAREN"
  | .EOF => "EOF"

structure Token where
  type : TokenType
  value : String
deriving DecidableEq, Repr

def AND_KEYWORDS : List String := ["i", "and", "&", "&&", "+"]
def OR_KEYWORDS : List String := ["lub", "or", "|", "||"]

/-- `KeywordExpressionLexer._read_word`: read characters up to whitespace
or a parenthesis. Returns the word and the remaining characters. -/
def readWord : List Char → List Char × List Char
  | [] => ([], [])
  | c :: cs =>
    if c.isWhitespace || c = '(' || c = ')' then ([], c :: cs)
    else
      let p := readWord cs
      (c :: p.1, p.2)

theorem readWord_rest_length_le : ∀ l : List Char, (readWord l).2.length ≤ l.length
  | [] => Nat.le_refl _
  | c :: cs => by
    by_cases h : c.isWhitespace || c = '(' || c = ')'
    · simp [readWord, h]
    · simp only [readWord, h, if_false]
      exact Nat.le_succ_of_le (readWord_rest_length_le cs)

/-- Classify one lexed word exactly as `KeywordExpressionLexer.tokenize`
does: lowercase membership in the operator sets, otherwise a keyword.
The token keeps the original spelling. -/
def classifyWord (w : String) : Token :=
  let wl := strLower w
  if AND_KEYWORDS.contains wl then ⟨.AND, w⟩
  else if OR_KEYWORDS.contains wl then ⟨.OR, w⟩
  else ⟨.KEYWORD, w⟩

/-- Main loop of `KeywordExpressionLexer.tokenize` (without the trailing
EOF token): skip whitespace, emit parenthesis tokens, else read a word. -/
def tokenizeAux : List Char → List Token
  | [] => []
  | c :: cs =>
    if c.isWhitespace then tokenizeAux cs
    else if c = '(' then ⟨.LPAREN, "("⟩ :: tokenizeAux cs
    else if c = ')' then ⟨.RPAREN, ")"⟩ :: tokenizeAux cs
    else
      classifyWord (String.mk (c :: (readWord cs).1)) :: tokenizeAux (readWord cs).2
termination_by l => l.length
decreasing_by
  all_goals simp_wf
  all_goals first
    | omega
    | exact Nat.lt_succ_of_le (readWord_rest_length_le _)

/-- `KeywordExpressionLexer.tokenize`: token list with the final EOF. -/
def tokenize (s : String) : List Token :=
  tokenizeAux s.data ++ [⟨.EOF, ""⟩]

/-! ### Expression AST (`KeywordExpressionNode` and subclasses) -/

inductive KeywordExpressionNode where
  | KeywordNode (keyword : String)
  | AndNode (left right : KeywordExpressionNode)
  | OrNode (left right : KeywordExpressionNode)
deriving DecidableEq, Repr

namespace KeywordExpressionNode

/-- `evaluate` of the three node classes: case-insensitive substring
containment at a leaf, boolean and/or at the inner nodes (both children
always evaluated, as in the source). -/
def evaluate : KeywordExpressionNode → String → Bool
  | .KeywordNode kw, text => containsCI kw text
  | .AndNode l r, text => evaluate l text && evaluate r text
  | .OrNode l r, text => evaluate l text || evaluate r text

/-- `get_keywords`: all leaf keywords, left to right, duplicates kept. -/
def get_keywords : KeywordExpressionNode → List String
  | .KeywordNode kw => [kw]
  | .AndNode l r => get_keywords l ++ get_keywords r
  | .OrNode l r => get_keywords l ++ get_keywords r

/-- `get_matched_keywords`: at a leaf, the keyword iff it matches; at an
inner node, the concatenation of both children's lists (for AND and OR
alike). -/
def get_matched_keywords : KeywordExpressionNode → String → List String
  | .KeywordNode kw, text =>
      if evaluate (.KeywordNode kw) text then [kw] else []
  | .AndNode l r, text => get_matched_keywords l text ++ get_matched_keywords r text
  | .OrNode l r, text => get_matched_keywords l text ++ get_matched_keywords r text

end KeywordExpressionNode

/-! ### Parser (`KeywordExpressionParser`)

The Python parser walks an index through the token list and raises
`ValueError` with an f-string message. The embedding keeps the not yet
consumed suffix of the token list as the parser state (the index is the
number of consumed tokens, recovered as `total - ts.length` where `total`
is the full token count), and represents each raise site as a structured
error that `renderParseError` prints to exactly the Python message. -/

inductive ParseError where
  | EmptyExpression
  | NoKeywordsFound
  | ExpectedToken (expected got : TokenType) (pos : Nat)
  | UnexpectedToken (ttype : TokenType) (value : String)
deriving DecidableEq, Repr

/-- The exact `ValueError` message of each raise site in the source. -/
def renderParseError : ParseError → String
  | .EmptyExpression => "Empty expression"
  | .NoKeywordsFound => "No keywords found"
  | .ExpectedToken expected got pos =>
      "Expected " ++ expected.name ++ ", got " ++ got.name ++ " at position " ++ toString pos
  | .UnexpectedToken t v =>
      "Unexpected token: " ++ t.name ++ " \x27" ++ v ++ "\x27"

/-- `KeywordExpressionParser._current_token`: the head of the remaining
tokens, or an EOF token when past the end. -/
def currentOf : List Token → Token
  | [] => ⟨.EOF, ""⟩
  | t :: _ => t

mutual

/-- `_parse_expression`: parse a term, then the `(OR term)*` loop. -/
def parseExpression (total : Nat) (ts : List Token) :
    Except ParseError (KeywordExpressionNode × { r : List Token // r.length < ts.length }) :=
  match parseTerm total ts with
  | .error e => .error e
  | .ok (left, ⟨r, hr⟩) =>
    match parseExprLoop total left r with
    | .error e => .error e
    | .ok (n, ⟨r2, hr2⟩) => .ok (n, ⟨r2, Nat.lt_of_le_of_lt hr2 hr⟩)
termination_by (ts.length, 3)

/-- The `while current is OR` loop of `_parse_expression`. -/
def parseExprLoop (total : Nat) (left : KeywordExpressionNode) (ts : List Token) :
    Except ParseError (KeywordExpressionNode × { r : List Token // r.length ≤ ts.length }) :=
  match ts with
  | [] => .ok (left, ⟨[], Nat.le_refl _⟩)
  | t :: rest =>
    if t.type = .OR then
      match parseTerm total rest with
      | .error e => .error e
      | .ok (right, ⟨r, hr⟩) =>
        match parseExprLoop total (.OrNode left right) r with
        | .error e => .error e
        | .ok (n, ⟨r2, hr2⟩) =>
          .ok (n, ⟨r2, by simp only [List.length_cons]; omega⟩)
    else .ok (left, ⟨t :: rest, Nat.le_refl _⟩)
termination_by (ts.length, 0)

/-- `_parse_term`: parse a factor, then the `(AND factor)*` loop. -/
def parseTerm (total : Nat) (ts : List Token) :
    Except ParseError (KeywordExpressionNode × { r : List Token // r.length < ts.length }) :=
  match parseFactor total ts with
  | .error e => .error e
  | .ok (left, ⟨r, hr⟩) =>
    match parseFactLoop total left r with
    | .error e => .error e
    | .ok (n, ⟨r2, hr2⟩) => .ok (n, ⟨r2, Nat.lt_of_le_of_lt hr2 hr⟩)
termination_by (ts.length, 1)

/-- The `while current is AND` loop of `_parse_term`. -/
def parseFactLoop (total : Nat) (left : KeywordExpressionNode) (ts : List Token) :
    Except ParseError (KeywordExpressionNode × { r : List Token // r.length ≤ ts.length }) :=
  match ts with
  | [] => .ok (left, ⟨[], Nat.le_refl _⟩)
  | t :: rest =>
    if t.type = .AND then
      match parseFactor total rest with
      | .error e => .error e
      | .ok (right, ⟨r, hr⟩) =>
        match parseFactLoop total (.AndNode left right) r with
        | .error e => .error e
        | .ok (n, ⟨r2, hr2⟩) =>
          .ok (n, ⟨r2, by simp only [List.length_cons]; omega⟩)
    else .ok (left, ⟨t :: rest, Nat.le_refl _⟩)
termination_by (ts.length, 0)

/-- `_parse_factor`: `KEYWORD`, or a parenthesised expression closed by
`_expect(RPAREN)`, otherwise the `Unexpected token` raise. -/
def parseFactor (total : Nat) (ts : List Token) :
    Except ParseError (KeywordExpressionNode × { r : List Token // r.length < ts.length }) :=
  match ts with
  | ⟨.KEYWORD, v⟩ :: rest =>
      .ok (.KeywordNode v, ⟨rest, by simp⟩)
  | ⟨.LPAREN, pv⟩ :: rest =>
    match parseExpression total rest with
    | .error e => .error e
    | .ok (n, ⟨r, hr⟩) =>
      match r with
      | ⟨.RPAREN, _⟩ :: r2 =>
          .ok (n, ⟨r2, by simp only [List.length_cons] at *; omega⟩)
      | r' => .error (.ExpectedToken .RPAREN (currentOf r').type (total - r'.length))
  | ts' => .error (.UnexpectedToken (currentOf ts').type (currentOf ts').value)
termination_by (ts.length, 0)

end

/-! The subtype bounds above only certify termination. The wrappers below
drop them, giving the parser functions their plain types; the equation
lemmas restate each function's defining clauses in that plain form. -/

def parseExpressionE (total : Nat) (ts : List Token) :
    Except ParseError (KeywordExpressionNode × List Token) :=
  match parseExpression total ts with
  | .error e => .error e
  | .ok (n, r) => .ok (n, r.val)

def parseExprLoopE (total : Nat) (left : KeywordExpressionNode) (ts : List Token) :
    Except ParseError (KeywordExpressionNode × List Token) :=
  match parseExprLoop total left ts with
  | .error e => .error e
  | .ok (n, r) => .ok (n, r.val)

def parseTermE (total : Nat) (ts : List Token) :
    Except ParseError (KeywordExpressionNode × List Token) :=
  match parseTerm total ts with
  | .error e => .error e
  | .ok (n, r) => .ok (n, r.val)

def parseFactLoopE (total : Nat) (left : KeywordExpressionNode) (ts : List Token) :
    Except ParseError (KeywordExpressionNode × List Token) :=
  match parseFactLoop total left ts with
  | .error e => .error e
  | .ok (n, r) => .ok (n, r.val)

def parseFactorE (total : Nat) (ts : List Token) :
    Except ParseError (KeywordExpressionNode × List Token) :=
  match parseFactor total ts with
  | .error e => .error e
  | .ok (n, r) => .ok (n, r.val)

theorem parseExpressionE_eq (total : Nat) (ts : List Token) :
    parseExpressionE total ts =
      match parseTermE total ts with
      | .error e => .error e
      | .ok (left, r) => parseExprLoopE total left r := by
  unfold parseExpressionE parseExpression
  cases hterm : parseTerm total ts with
  | error e => simp [parseTermE, hterm]
  | ok p =>
    obtain ⟨left, r, hr⟩ := p
    simp only [parseTermE, hterm, parseExprLoopE]
    cases hloop : parseExprLoop total left r with
    | error e => simp [hloop]
    | ok q => obtain ⟨n, r2, hr2⟩ := q; simp [hloop]

theorem parseExprLoopE_eq (total : Nat) (left : KeywordExpressionNode) (ts : List Token) :
    parseExprLoopE total left ts =
      match ts with
      | [] => .ok (left, [])
      | t :: rest =>
        if t.type = .OR then
          match parseTermE total rest with
          | .error e => .error e
          | .ok (right, r) => parseExprLoopE total (.OrNode left right) r
        else .ok (left, t :: rest) := by
  cases ts with
  | nil => simp [parseExprLoopE, parseExprLoop]
  | cons t rest =>
    by_cases hOR : t.type = .OR
    · simp only [parseExprLoopE, parseExprLoop, hOR, if_true]
      cases hterm : parseTerm total rest with
      | error e => simp [parseTermE, hterm]
      | ok p =>
        obtain ⟨right, r, hr⟩ := p
        simp only [parseTermE, hterm]
        cases hloop : parseExprLoop total (.OrNode left right) r with
        | error e => simp [hloop]
        | ok q => obtain ⟨n, r2, hr2⟩ := q; simp [hloop]
    · simp [parseExprLoopE, parseExprLoop, hOR]

theorem parseTermE_eq (total : Nat) (ts : List Token) :
    parseTermE total ts =
      match parseFactorE total ts with
      | .error e => .error e
      | .ok (left, r) => parseFactLoopE total left r := by
  unfold parseTermE parseTerm
  cases hfac : parseFactor total ts with
  | error e => simp [parseFactorE, hfac]
  | ok p =>
    obtain ⟨left, r, hr⟩ := p
    simp only [parseFactorE, hfac, parseFactLoopE]
    cases hloop : parseFactLoop total left r with
    | error e => simp [hloop]
    | ok q => obtain ⟨n, r2, hr2⟩ := q; simp [hloop]

theorem parseFactLoopE_eq (total : Nat) (left : KeywordExpressionNode) (ts : List Token) :
    parseFactLoopE total left ts =
      match ts with
      | [] => .ok (left, [])
      | t :: rest =>
        if t.type = .AND then
          match parseFactorE total rest with
          | .error e => .error e
          | .ok (right, r) => parseFactLoopE total (.AndNode left right) r
        else .ok (left, t :: rest) := by
  cases ts with
  | nil => simp [parseFactLoopE, parseFactLoop]
  | cons t rest =>
    by_cases hAND : t.type = .AND
    · simp only [parseFactLoopE, parseFactLoop, hAND, if_true]
      cases hfac : parseFactor total rest with
      | error e => simp [parseFactorE, hfac]
      | ok p =>
        obtain ⟨right, r, hr⟩ := p
        simp only [parseFactorE, hfac]
        cases hloop : parseFactLoop total (.AndNode left right) r with
        | error e => simp [hloop]
        | ok q => obtain ⟨n, r2, hr2⟩ := q; simp [hloop]
    · simp [parseFactLoopE, parseFactLoop, hAND]

theorem parseFactorE_eq (total : Nat) (ts : List Token) :
    parseFactorE total ts =
      match ts with
      | ⟨.KEYWORD, v⟩ :: rest => .ok (.KeywordNode v, rest)
      | ⟨.LPAREN, _⟩ :: rest =>
        match parseExpressionE total rest with
        | .error e => .error e
        | .ok (n, r) =>
          match r with
          | ⟨.RPAREN, _⟩ :: r2 => .ok (n, r2)
          | r' => .error (.ExpectedToken .RPAREN (currentOf r').type (total - r'.length))
      | ts' => .error (.UnexpectedToken (currentOf ts').type (currentOf ts').value) := by
  obtain _ | ⟨⟨tt, tv⟩, rest⟩ := ts
  · simp [parseFactorE, parseFactor]
  · cases tt
    case KEYWORD => simp [parseFactorE, parseFactor]
    case LPAREN =>
      simp only [parseFactorE, parseFactor]
      cases he : parseExpression total rest with
      | error e => simp [parseExpressionE, he]
      | ok p =>
        obtain ⟨n, r, hr⟩ := p
        simp only [parseExpressionE, he]
        obtain _ | ⟨⟨rt, rv⟩, r2⟩ := r
        · simp
        · cases rt <;> simp
    all_goals simp [parseFactorE, parseFactor]

/-- The operator scan of `KeywordExpressionParser.parse` that selects
legacy mode: any AND, OR or LPAREN token present? -/
def hasOperators (tokens : List Token) : Bool :=
  tokens.any (fun t => t.type == .AND || t.type == .OR || t.type == .LPAREN)

/-- Legacy-mode keyword extraction: the values of the KEYWORD tokens. -/
def legacyKeywords (tokens : List Token) : List String :=
  (tokens.filter (fun t => t.type == .KEYWORD)).map Token.value

/-- The legacy-mode left fold chaining keywords with `AndNode`. -/
def chainAnd (acc : KeywordExpressionNode) : List String → KeywordExpressionNode
  | [] => acc
  | k :: ks => chainAnd (.AndNode acc (.KeywordNode k)) ks

/-- `KeywordExpressionParser.parse`: empty check, tokenize, legacy-mode
keyword list (implicit AND) when no operator token occurs, otherwise the
recursive descent (tokens left over after the expression are ignored,
exactly as in the source). -/
def parserParse (expression : String) : Except ParseError KeywordExpressionNode :=
  if pyStrip expression = "" then .error .EmptyExpression
  else
    if hasOperators (tokenize expression) then
      match parseExpressionE (tokenize expression).length (tokenize expression) with
      | .error e => .error e
      | .ok (n, _) => .ok n
    else
      match legacyKeywords (tokenize expression) with
      | [] => .error .NoKeywordsFound
      | k :: ks => .ok (chainAnd (.KeywordNode k) ks)

/-! ### `KeywordFilter` -/

structure KeywordFilter where
  expression : String
  root : Option KeywordExpressionNode
  parse_error : Option String
deriving DecidableEq, Repr

/-- `KeywordFilter.__init__` / `_parse`: the captured parse outcome. On
success the root is set and the error stays `none`; on a `ValueError`
the message is stored and the root stays `none`. -/
def KeywordFilter.compile (expression : String) : KeywordFilter :=
  match parserParse expression with
  | .ok n => ⟨expression, some n, none⟩
  | .error e => ⟨expression, none, some (renderParseError e)⟩

def KeywordFilter.is_valid (f : KeywordFilter) : Bool := f.root.isSome

def KeywordFilter.get_error (f : KeywordFilter) : Option String := f.parse_error

def KeywordFilter.matches (f : KeywordFilter) (text : String) : Bool :=
  match f.root with
  | none => false
  | some n => n.evaluate text

def KeywordFilter.get_all_keywords (f : KeywordFilter) : List String :=
  match f.root with
  | none => []
  | some n => n.get_keywords

def KeywordFilter.get_matched_keywords (f : KeywordFilter) (text : String) : List String :=
  match f.root with
  | none => []
  | some n => n.get_matched_keywords text

/-- Python `list(dict.fromkeys(l))`: deduplicate keeping the first
occurrence of each element, in order. -/
def dedupKeepFirst : List String → List String
  | [] => []
  | x :: xs => x :: dedupKeepFirst (xs.filter (fun y => y != x))
termination_by l => l.length
decreasing_by
  simp_wf
  exact Nat.lt_succ_of_le (List.length_filter_le _ _)

def KeywordFilter.get_search_terms (f : KeywordFilter) : List String :=
  match f.root with
  | none => []
  | some n => dedupKeepFirst n.get_keywords

/-! ### Orchestrator (`ScraperManager`)

Prices (Python floats) are modelled as rationals; the decimal literals
the program compares are exact in both. The cancellation token
(`threading.Event`, set at most once by the caller and only read here)
is a boolean that is constant over one run. The `SCRAPERS` table maps
each known platform name to a network-backed scraper; a scraper's
`search` either returns a list of raw results or raises — both outcomes
network-dependent — so the table is abstracted as an oracle
`adapters : String → Option (Except PyExc (List ScrapeResult))`, where
`none` stands for a platform missing from `SCRAPERS` and `some` gives
the search outcome of the platform's scraper. -/

/-- `ScrapeResult` dataclass. -/
structure ScrapeResult where
  portal : String
  title : String
  price : Option ℚ
  price_text : String
  url : String
  matched_keywords : List String := []
deriving DecidableEq, Repr

/-- `ScrapeConfig` dataclass. -/
structure ScrapeConfig where
  platforms : List String
  keyword_expression : String
  price_min : Option ℚ
  price_max : Option ℚ

/-- A raised Python exception, as `ScraperManager.run` observes it:
`str(exc)` and `type(exc).__name__`. -/
structure PyExc where
  msg : String
  typeName : String

/-- `err_msg = str(exc) if str(exc) else type(exc).__name__`. -/
def PyExc.errMsg (e : PyExc) : String :=
  if e.msg = "" then e.typeName else e.msg

/-- The price test inside `ScraperManager._passes_filter`: an unknown
price always passes; a known price fails when below `price_min` or
above `price_max` (bounds inclusive). -/
def price_check (cfg : ScrapeConfig) (price : Option ℚ) : Bool :=
  match price with
  | none => true
  | some p =>
    if (match cfg.price_min with | some m => decide (p < m) | none => false) then false
    else if (match cfg.price_max with | some m => decide (m < p) | none => false) then false
    else true

/-- `ScraperManager._passes_filter`: keyword expression first; on a
match the result's `matched_keywords` is filled in, then the price test
runs. Returns the decision together with the (possibly updated) result. -/
def passes_filter (kf : KeywordFilter) (cfg : ScrapeConfig) (r : ScrapeResult) :
    Bool × ScrapeResult :=
  if ¬ kf.matches r.title then (false, r)
  else
    let r' := { r with matched_keywords := kf.get_matched_keywords r.title }
    (price_check cfg r'.price, r')

/-- Python dict assignment `d[k] = v` on an insertion-ordered mapping
represented as an association list. -/
def dictInsert {α : Type} (m : List (String × α)) (k : String) (v : α) :
    List (String × α) :=
  if m.any (fun p => p.1 == k) then
    m.map (fun p => if p.1 == k then (k, v) else p)
  else m ++ [(k, v)]

/-- The mutable state of a `ScraperManager` during `run`: the total
accepted count, the two per-platform mappings, and the result queue
contents in push order. -/
structure ManagerState where
  total_found : Nat
  platform_results : List (String × Nat)
  platform_errors : List (String × String)
  queue : List ScrapeResult
deriving DecidableEq, Repr

/-- The per-item loop in `ScraperManager.run`: walks the raw results,
breaking when the cancel flag is set, counting and queueing everything
that passes `_passes_filter`. Returns `platform_count` and the queued
items in order. -/
def filterItems (cancel : Bool) (kf : KeywordFilter) (cfg : ScrapeConfig) :
    List ScrapeResult → Nat × List ScrapeResult
  | [] => (0, [])
  | r :: rs =>
    if cancel then (0, [])
    else
      let p := passes_filter kf cfg r
      let rec_result := filterItems cancel kf cfg rs
      if p.1 then (rec_result.1 + 1, p.2 :: rec_result.2)
      else rec_result

/-- The platform loop of `ScraperManager.run`: break on cancellation,
skip platforms missing from `SCRAPERS`, record a per-platform count on
success and the error message on an exception (one platform's failure
never aborts the loop). -/
def runLoop (cancel : Bool)
    (adapters : String → Option (Except PyExc (List ScrapeResult)))
    (kf : KeywordFilter) (cfg : ScrapeConfig) :
    List String → ManagerState → ManagerState
  | [], st => st
  | platform :: rest, st =>
    if cancel then st
    else
      match adapters platform with
      | none => runLoop cancel adapters kf cfg rest st
      | some (.ok raw) =>
        let fr := filterItems cancel kf cfg raw
        runLoop cancel adapters kf cfg rest
          { st with
            total_found := st.total_found + fr.1
            platform_results := dictInsert st.platform_results platform fr.1
            queue := st.queue ++ fr.2 }
      | some (.error e) =>
        runLoop cancel adapters kf cfg rest
          { st with platform_errors := dictInsert st.platform_errors platform e.errMsg }

/-- `ScraperManager.run`: compile the filter once (in `__init__`), start
from the empty state, loop over the requested platforms. -/
def managerRun (cancel : Bool)
    (adapters : String → Option (Except PyExc (List ScrapeResult)))
    (cfg : ScrapeConfig) : ManagerState :=
  runLoop cancel adapters (KeywordFilter.compile cfg.keyword_expression) cfg
    cfg.platforms ⟨0, [], [], []⟩

/-- `ScraperManager._build_summary`: one part per requested platform —
its shortened error, else its count, else a dash — around the total. -/
def build_summary (cfg : ScrapeConfig) (st : ManagerState) : String :=
  let parts := cfg.platforms.map (fun platform =>
    match st.platform_errors.lookup platform with
    | some err =>
      let short := if err.length > 30 then err.take 27 ++ "..." else err
      platform ++ ": ⚠ " ++ short
    | none =>
      match st.platform_results.lookup platform with
      | some count => platform ++ ": " ++ toString count
      | none => platform ++ ": —")
  "✅ " ++ toString st.total_found ++ " results" ++ "  (" ++ String.intercalate " | " parts ++ ")"

/-! ### Allegro fetch state machine (`AllegroScraper._fetch_with_session`)

One network interaction is one scripted `NetResponse`; the script is an
infinite stream `Nat → NetResponse` consumed in order (`netError` models
a `requests.RequestException` raised by the call itself). The
`hasListings` flag abstracts the listing-content check
(`soup.select("article") or soup.select("[data-box-name='items']") or
"listing" in resp.url`) — HTML detail outside the core contract. The
randomized optional category visit inside `_warm_up_session` (taken with
probability 0.3 after a 200) is modelled as not taken; it can only add
one more request after a successful warm-up and is unreachable whenever
warm-up fails, so it affects no property below. Delays and prints are
dropped. -/

inductive NetResponse where
  | response (statusCode : Nat) (body : String) (hasListings : Bool)
  | netError (msg : String)
deriving DecidableEq, Repr

/-- The errors an `AllegroScraper.search` call can let escape, split by
kind: `sourceUnavailable` is the dedicated
`requests.RequestException("Allegro anti-bot active. …")` raised when
every strategy is exhausted — the code's realization of the spec's
`SourceUnavailable` — and `generic` stands for any other exception
type. -/
inductive ScraperError where
  | sourceUnavailable (msg : String)
  | generic (msg : String)
deriving DecidableEq, Repr

def antiBotMessage : String := "Allegro anti-bot active. Spróbuj później lub użyj VPN."

/-- One entry of the fallback `strategies` list. -/
structure Strategy where
  mobile : Bool
  fresh_session : Bool

/-- The ordered strategy list of `_fetch_with_session`. -/
def strategies : List Strategy :=
  [⟨false, false⟩, ⟨false, true⟩, ⟨true, true⟩, ⟨true, false⟩, ⟨false, true⟩]

def MAX_RETRIES : Nat := 5

/-- `_warm_up_session` outcome on one scripted response: a 403 or a
challenge marker (`"cf-"` / `"challenge"` in the lowercased body) fails,
a 200 succeeds (cookies acquired), anything else — including a raised
`RequestException` — fails. -/
def warmUpOk (r : NetResponse) : Bool :=
  match r with
  | .netError _ => false
  | .response code body _ =>
    if code = 403 || containsCI "cf-" body || containsCI "challenge" body then false
    else code = 200

/-- Classification of the listing-query response inside one attempt of
`_fetch_with_session`: 429, 403, a challenge marker in the body, any
other HTTP error status (`raise_for_status`, whose exception the
`except` clause absorbs), a raised `RequestException`, or a page without
listing content all block the attempt; otherwise the page is returned. -/
def listingBlocked (r : NetResponse) : Bool :=
  match r with
  | .netError _ => true
  | .response code body hasListings =>
    code = 429 || code = 403 ||
    containsCI "captcha" body || containsCI "cf-browser-verification" body ||
    containsCI "challenge-running" body ||
    decide (400 ≤ code) || !hasListings

/-- The strategy loop of `_fetch_with_session`: per strategy, optionally
reset the session (dropping cookies), warm up unless cookies are already
acquired, then issue the listing query; any blocked outcome drops the
cookies and moves to the next strategy. When the strategies are
exhausted the dedicated anti-bot `RequestException` is raised. -/
def fetchAttempts (script : Nat → NetResponse) :
    List Strategy → Bool → Nat → Except ScraperError NetResponse
  | [], _, _ => .error (.sourceUnavailable antiBotMessage)
  | strat :: rest, cookies0, idx =>
    let cookies := if strat.fresh_session then false else cookies0
    if cookies then
      if listingBlocked (script idx) then fetchAttempts script rest false (idx + 1)
      else .ok (script idx)
    else
      if warmUpOk (script idx) then
        if listingBlocked (script (idx + 1)) then fetchAttempts script rest false (idx + 2)
        else .ok (script (idx + 1))
      else fetchAttempts script rest false (idx + 1)

/-- `_fetch_with_session`: run `strategies[:MAX_RETRIES]` starting with
no cookies (`__init__` sets `_cookies_acquired = False`). -/
def fetch_with_session (script : Nat → NetResponse) : Except ScraperError NetResponse :=
  fetchAttempts script (strategies.take MAX_RETRIES) false 0

/-- `AllegroScraper.search` around the fetch machine: return immediately
when cancelled; on a fetch error fall back to the DrissionPage scraper
when that library is available (that path catches every exception of its
own and returns a plain list), otherwise re-raise. On success the page
is parsed by the HTML extraction step, abstracted as `parseSoup`. -/
def allegroSearch (script : Nat → NetResponse) (drissionAvailable : Bool)
    (drissionResults : List ScrapeResult)
    (parseSoup : NetResponse → List ScrapeResult) (cancelled : Bool) :
    Except ScraperError (List ScrapeResult) :=
  if cancelled then .ok []
  else
    match fetch_with_session script with
    | .error e => if drissionAvailable then .ok drissionResults else .error e
    | .ok soup => .ok (parseSoup soup)

/-! ## Helper lemmas -/

/-- Compilation of `"ddr5 i ram"`, computed once. -/
theorem compile_ddr5_ram :
    KeywordFilter.compile "ddr5 i ram" =
      ⟨"ddr5 i ram",
       some (.AndNode (.KeywordNode "ddr5") (.KeywordNode "ram")), none⟩ := by
  simp +decide [KeywordFilter.compile, parserParse, pyStrip, tokenize, tokenizeAux,
    readWord, classifyWord, strLower, lowerChars, hasOperators, legacyKeywords,
    chainAnd, parseExpressionE_eq, parseExprLoopE_eq, parseTermE_eq,
    parseFactLoopE_eq, parseFactorE_eq, currentOf, AND_KEYWORDS, OR_KEYWORDS]

/-- Compilation of `"ddr5 i (cl30 lub cl40)"`, computed once. -/
theorem compile_ddr5_cl :
    KeywordFilter.compile "ddr5 i (cl30 lub cl40)" =
      ⟨"ddr5 i (cl30 lub cl40)",
       some (.AndNode (.KeywordNode "ddr5")
         (.OrNode (.KeywordNode "cl30") (.KeywordNode "cl40"))), none⟩ := by
  simp +decide [KeywordFilter.compile, parserParse, pyStrip, tokenize, tokenizeAux,
    readWord, classifyWord, strLower, lowerChars, hasOperators, legacyKeywords,
    chainAnd, parseExpressionE_eq, parseExprLoopE_eq, parseTermE_eq,
    parseFactLoopE_eq, parseFactorE_eq, currentOf, AND_KEYWORDS, OR_KEYWORDS]

/-- Compilation of `"laptop, gaming"`, computed once: the lexer breaks
words only at whitespace and parentheses, so the comma stays inside the
first keyword. -/
theorem compile_laptop_gaming :
    KeywordFilter.compile "laptop, gaming" =
      ⟨"laptop, gaming",
       some (.AndNode (.KeywordNode "laptop,") (.KeywordNode "gaming")), none⟩ := by
  simp +decide [KeywordFilter.compile, parserParse, pyStrip, tokenize, tokenizeAux,
    readWord, classifyWord, strLower, lowerChars, hasOperators, legacyKeywords,
    chainAnd, parseExpressionE_eq, parseExprLoopE_eq, parseTermE_eq,
    parseFactLoopE_eq, parseFactorE_eq, currentOf, AND_KEYWORDS, OR_KEYWORDS]

/-- Compilation of `"(unclosed"`, computed once. -/
theorem compile_unclosed :
    KeywordFilter.compile "(unclosed" =
      ⟨"(unclosed", none, some "Expected RPAREN, got EOF at position 2"⟩ := by
  simp +decide [KeywordFilter.compile, parserParse, pyStrip, tokenize, tokenizeAux,
    readWord, classifyWord, strLower, lowerChars, hasOperators, legacyKeywords,
    chainAnd, parseExpressionE_eq, parseExprLoopE_eq, parseTermE_eq,
    parseFactLoopE_eq, parseFactorE_eq, currentOf, AND_KEYWORDS, OR_KEYWORDS,
    renderParseError, TokenType.name]

/-- Compilation of `""`, computed once. -/
theorem compile_empty :
    KeywordFilter.compile "" = ⟨"", none, some "Empty expression"⟩ := by
  simp +decide [KeywordFilter.compile, parserParse, pyStrip, renderParseError]

/-- `get_matched_keywords` is the filter of `get_keywords` by
case-insensitive containment in the text. -/
theorem matched_keywords_eq_filter (n : KeywordExpressionNode) (text : String) :
    n.get_matched_keywords text
      = n.get_keywords.filter (fun k => containsCI k text) := by
  induction n with
  | KeywordNode kw =>
    simp only [KeywordExpressionNode.get_matched_keywords,
      KeywordExpressionNode.get_keywords, KeywordExpressionNode.evaluate,
      List.filter]
    split <;> rename_i h <;> simp [h]
  | AndNode l r ihl ihr =>
    simp [KeywordExpressionNode.get_matched_keywords,
      KeywordExpressionNode.get_keywords, List.filter_append, ihl, ihr]
  | OrNode l r ihl ihr =>
    simp [KeywordExpressionNode.get_matched_keywords,
      KeywordExpressionNode.get_keywords, List.filter_append, ihl, ihr]

/-- A node that evaluates to true reports at least one matched keyword. -/
theorem evaluate_true_matched_ne_nil (n : KeywordExpressionNode) (text : String)
    (h : n.evaluate text = true) : n.get_matched_keywords text ≠ [] := by
  induction n with
  | KeywordNode kw =>
    simp only [KeywordExpressionNode.get_matched_keywords, h, if_true]
    simp
  | AndNode l r ihl ihr =>
    simp only [KeywordExpressionNode.evaluate, Bool.and_eq_true] at h
    simp only [KeywordExpressionNode.get_matched_keywords, ne_eq,
      List.append_eq_nil]
    intro ⟨h1, _⟩
    exact ihl h.1 h1
  | OrNode l r ihl ihr =>
    simp only [KeywordExpressionNode.evaluate, Bool.or_eq_true] at h
    simp only [KeywordExpressionNode.get_matched_keywords, ne_eq,
      List.append_eq_nil]
    rcases h with h | h
    · intro ⟨h1, _⟩; exact ihl h h1
    · intro ⟨_, h2⟩; exact ihr h h2

/-- The key list of an association-list mapping. -/
def keysOf {α : Type} (m : List (String × α)) : List String := m.map Prod.fst

/-- The sum of the per-platform counts. -/
def sumCounts (m : List (String × Nat)) : Nat := (m.map Prod.snd).sum


theorem any_key_eq_false {α : Type} (m : List (String × α)) (k : String)
    (h : k ∉ keysOf m) : (m.any fun p => p.1 == k) = false := by
  unfold keysOf at h
  cases hb : (m.any fun p => p.1 == k)
  · rfl
  · simp only [List.any_eq_true, beq_iff_eq] at hb
    obtain ⟨p, hp, hpk⟩ := hb
    exact absurd (List.mem_map.mpr ⟨p, hp, hpk⟩) h

theorem dictInsert_of_not_mem {α : Type} (m : List (String × α)) (k : String) (v : α)
    (h : k ∉ keysOf m) : dictInsert m k v = m ++ [(k, v)] := by
  unfold dictInsert
  rw [any_key_eq_false m k h]
  rfl

theorem mem_keysOf_dictInsert {α : Type} (m : List (String × α)) (k : String) (v : α)
    (q : String) : q ∈ keysOf (dictInsert m k v) ↔ (q = k ∨ q ∈ keysOf m) := by
  unfold dictInsert keysOf
  by_cases h : m.any (fun p => p.1 == k)
  · simp only [h, if_true]
    have hk : k ∈ m.map Prod.fst := by
      simp only [List.any_eq_true, beq_iff_eq] at h
      obtain ⟨p0, hp0, hp0k⟩ := h
      exact List.mem_map.mpr ⟨p0, hp0, hp0k⟩
    have hmapeq :
        List.map Prod.fst (m.map (fun p => if (p.1 == k) = true then (k, v) else p))
          = m.map Prod.fst := by
      rw [List.map_map]
      apply List.map_congr_left
      intro p hp
      by_cases hpk : p.1 = k
      · simp [Function.comp, hpk]
      · simp [Function.comp, hpk]
    rw [hmapeq]
    constructor
    · exact Or.inr
    · rintro (rfl | hq)
      · exact hk
      · exact hq
  · have hfalse : (m.any fun p => p.1 == k) = false := by
      cases hb : (m.any fun p => p.1 == k)
      · rfl
      · exact absurd hb h
    rw [hfalse]
    simp only [Bool.false_eq_true, if_false, List.map_append, List.map_cons,
      List.map_nil, List.mem_append, List.mem_cons, List.not_mem_nil, or_false]
    tauto

theorem sumCounts_append (m1 m2 : List (String × Nat)) :
    sumCounts (m1 ++ m2) = sumCounts m1 + sumCounts m2 := by
  simp [sumCounts]

/-- A set cancellation token makes `runLoop` a no-op. -/
theorem runLoop_cancelled (adapters : String → Option (Except PyExc (List ScrapeResult)))
    (kf : KeywordFilter) (cfg : ScrapeConfig) (ps : List String) (st : ManagerState) :
    runLoop true adapters kf cfg ps st = st := by
  cases ps <;> simp [runLoop]

/-- `runLoop` step: a platform missing from `SCRAPERS` is skipped. -/
theorem runLoop_cons_none (adapters : String → Option (Except PyExc (List ScrapeResult)))
    (kf : KeywordFilter) (cfg : ScrapeConfig) (p : String) (rest : List String)
    (st : ManagerState) (hap : adapters p = none) :
    runLoop false adapters kf cfg (p :: rest) st
      = runLoop false adapters kf cfg rest st := by
  simp [runLoop, hap]

/-- `runLoop` step: a successful search records the filtered count and
queues the accepted items. -/
theorem runLoop_cons_ok (adapters : String → Option (Except PyExc (List ScrapeResult)))
    (kf : KeywordFilter) (cfg : ScrapeConfig) (p : String) (rest : List String)
    (st : ManagerState) (raw : List ScrapeResult)
    (hap : adapters p = some (.ok raw)) :
    runLoop false adapters kf cfg (p :: rest) st
      = runLoop false adapters kf cfg rest
          { st with
            total_found := st.total_found + (filterItems false kf cfg raw).1
            platform_results := dictInsert st.platform_results p (filterItems false kf cfg raw).1
            queue := st.queue ++ (filterItems false kf cfg raw).2 } := by
  simp [runLoop, hap]

/-- `runLoop` step: a raised exception records the error message. -/
theorem runLoop_cons_error (adapters : String → Option (Except PyExc (List ScrapeResult)))
    (kf : KeywordFilter) (cfg : ScrapeConfig) (p : String) (rest : List String)
    (st : ManagerState) (e : PyExc) (hap : adapters p = some (.error e)) :
    runLoop false adapters kf cfg (p :: rest) st
      = runLoop false adapters kf cfg rest
          { st with platform_errors := dictInsert st.platform_errors p e.errMsg } := by
  simp [runLoop, hap]

/-- Along an uncancelled `runLoop`, the per-platform counts add up to
the growth of the total, provided the remaining platforms are distinct
and fresh in the counts mapping. -/
theorem runLoop_sum (adapters : String → Option (Except PyExc (List ScrapeResult)))
    (kf : KeywordFilter) (cfg : ScrapeConfig) :
    ∀ (ps : List String) (st : ManagerState), ps.Nodup →
      (∀ p ∈ ps, p ∉ keysOf st.platform_results) →
      sumCounts (runLoop false adapters kf cfg ps st).platform_results + st.total_found
        = sumCounts st.platform_results + (runLoop false adapters kf cfg ps st).total_found
  | [], st, _, _ => by simp [runLoop]
  | p :: rest, st, hnd, hfresh => by
    have hndr : rest.Nodup := (List.nodup_cons.mp hnd).2
    have hpr : p ∉ rest := (List.nodup_cons.mp hnd).1
    rcases hap : adapters p with _ | e | raw
    · rw [runLoop_cons_none adapters kf cfg p rest st hap]
      exact runLoop_sum adapters kf cfg rest st hndr
        (fun q hq => hfresh q (List.mem_cons_of_mem _ hq))
    · rw [runLoop_cons_error adapters kf cfg p rest st e hap]
      exact runLoop_sum adapters kf cfg rest _ hndr
        (fun q hq => hfresh q (List.mem_cons_of_mem _ hq))
    · rw [runLoop_cons_ok adapters kf cfg p rest st raw hap]
      have hpf : p ∉ keysOf st.platform_results := hfresh p (List.mem_cons_self _ _)
      have hfresh2 : ∀ q ∈ rest,
          q ∉ keysOf (dictInsert st.platform_results p (filterItems false kf cfg raw).1) := by
        intro q hq hmem
        rcases (mem_keysOf_dictInsert _ _ _ _).mp hmem with rfl | hmem2
        · exact hpr hq
        · exact hfresh q (List.mem_cons_of_mem _ hq) hmem2
      have ih := runLoop_sum adapters kf cfg rest
        { st with
          total_found := st.total_found + (filterItems false kf cfg raw).1
          platform_results := dictInsert st.platform_results p (filterItems false kf cfg raw).1
          queue := st.queue ++ (filterItems false kf cfg raw).2 }
        hndr hfresh2
      simp only [dictInsert_of_not_mem st.platform_results p _ hpf, sumCounts_append] at ih ⊢
      simp only [sumCounts, List.map_cons, List.map_nil, List.sum_cons, List.sum_nil] at ih ⊢
      omega

/-- Platforms outside the processed list never enter or leave either
mapping along an uncancelled `runLoop`. -/
theorem runLoop_untouched (adapters : String → Option (Except PyExc (List ScrapeResult)))
    (kf : KeywordFilter) (cfg : ScrapeConfig) :
    ∀ (ps : List String) (st : ManagerState) (q : String), q ∉ ps →
      ((q ∈ keysOf (runLoop false adapters kf cfg ps st).platform_results
          ↔ q ∈ keysOf st.platform_results)
       ∧ (q ∈ keysOf (runLoop false adapters kf cfg ps st).platform_errors
          ↔ q ∈ keysOf st.platform_errors))
  | [], st, q, _ => by simp [runLoop]
  | p :: rest, st, q, hq => by
    have hqp : q ≠ p := fun h => hq (h ▸ List.mem_cons_self _ _)
    have hqr : q ∉ rest := fun h => hq (List.mem_cons_of_mem _ h)
    rcases hap : adapters p with _ | e | raw
    · rw [runLoop_cons_none adapters kf cfg p rest st hap]
      exact runLoop_untouched adapters kf cfg rest st q hqr
    · rw [runLoop_cons_error adapters kf cfg p rest st e hap]
      have ih := runLoop_untouched adapters kf cfg rest
        { st with platform_errors := dictInsert st.platform_errors p e.errMsg } q hqr
      refine ⟨ih.1.trans Iff.rfl, ih.2.trans ?_⟩
      simp only [mem_keysOf_dictInsert]
      exact ⟨fun h => h.resolve_left hqp, Or.inr⟩
    · rw [runLoop_cons_ok adapters kf cfg p rest st raw hap]
      have ih := runLoop_untouched adapters kf cfg rest
        { st with
          total_found := st.total_found + (filterItems false kf cfg raw).1
          platform_results := dictInsert st.platform_results p (filterItems false kf cfg raw).1
          queue := st.queue ++ (filterItems false kf cfg raw).2 } q hqr
      refine ⟨ih.1.trans ?_, ih.2.trans Iff.rfl⟩
      simp only [mem_keysOf_dictInsert]
      exact ⟨fun h => h.resolve_left hqp, Or.inr⟩

/-- A known requested platform, fresh in both mappings, ends in exactly
one of them when the loop is not cancelled. -/
theorem runLoop_processed (adapters : String → Option (Except PyExc (List ScrapeResult)))
    (kf : KeywordFilter) (cfg : ScrapeConfig) :
    ∀ (ps : List String) (st : ManagerState) (p : String), p ∈ ps → ps.Nodup →
      (adapters p).isSome →
      p ∉ keysOf st.platform_results → p ∉ keysOf st.platform_errors →
      Xor' (p ∈ keysOf (runLoop false adapters kf cfg ps st).platform_results)
        (p ∈ keysOf (runLoop false adapters kf cfg ps st).platform_errors)
  | [], _, p, hmem, _, _, _, _ => absurd hmem (List.not_mem_nil p)
  | h :: rest, st, p, hmem, hnd, hsome, hfr, hfe => by
    have hndr : rest.Nodup := (List.nodup_cons.mp hnd).2
    have hhr : h ∉ rest := (List.nodup_cons.mp hnd).1
    by_cases hph : p = h
    · subst hph
      rcases hap : adapters p with _ | e | raw
      · rw [hap] at hsome
        simp at hsome
      · rw [runLoop_cons_error adapters kf cfg p rest st e hap]
        have hout := runLoop_untouched adapters kf cfg rest
          { st with platform_errors := dictInsert st.platform_errors p e.errMsg } p hhr
        refine Or.inr ⟨?_, ?_⟩
        · rw [hout.2]
          simp [mem_keysOf_dictInsert]
        · rw [hout.1]
          exact hfr
      · rw [runLoop_cons_ok adapters kf cfg p rest st raw hap]
        have hout := runLoop_untouched adapters kf cfg rest
          { st with
            total_found := st.total_found + (filterItems false kf cfg raw).1
            platform_results := dictInsert st.platform_results p (filterItems false kf cfg raw).1
            queue := st.queue ++ (filterItems false kf cfg raw).2 } p hhr
        refine Or.inl ⟨?_, ?_⟩
        · rw [hout.1]
          simp [mem_keysOf_dictInsert]
        · rw [hout.2]
          exact hfe
    · have hpr : p ∈ rest := (List.mem_cons.mp hmem).resolve_left hph
      rcases hap : adapters h with _ | e | raw
      · rw [runLoop_cons_none adapters kf cfg h rest st hap]
        exact runLoop_processed adapters kf cfg rest st p hpr hndr hsome hfr hfe
      · rw [runLoop_cons_error adapters kf cfg h rest st e hap]
        refine runLoop_processed adapters kf cfg rest _ p hpr hndr hsome hfr ?_
        simp only [mem_keysOf_dictInsert]
        rintro (h1 | h2)
        · exact hph h1
        · exact hfe h2
      · rw [runLoop_cons_ok adapters kf cfg h rest st raw hap]
        refine runLoop_processed adapters kf cfg rest _ p hpr hndr hsome ?_ hfe
        simp only [mem_keysOf_dictInsert]
        rintro (h1 | h2)
        · exact hph h1
        · exact hfr h2

/-- The only error the strategy loop can raise is the dedicated
anti-bot exhaustion error. -/
theorem fetchAttempts_error_eq (script : Nat → NetResponse) :
    ∀ (strats : List Strategy) (cookies : Bool) (idx : Nat) (e : ScraperError),
      fetchAttempts script strats cookies idx = .error e →
      e = .sourceUnavailable antiBotMessage
  | [], cookies, idx, e => by
    intro h
    simp only [fetchAttempts, Except.error.injEq] at h
    exact h.symm
  | strat :: rest, cookies, idx, e => by
    intro h
    simp only [fetchAttempts] at h
    by_cases hck : (if strat.fresh_session then false else cookies) = true
    · rw [if_pos hck] at h
      by_cases hbl : listingBlocked (script idx) = true
      · rw [if_pos hbl] at h
        exact fetchAttempts_error_eq script rest false (idx + 1) e h
      · rw [if_neg hbl] at h
        exact absurd h (by simp)
    · rw [if_neg hck] at h
      by_cases hw : warmUpOk (script idx) = true
      · rw [if_pos hw] at h
        by_cases hbl : listingBlocked (script (idx + 1)) = true
        · rw [if_pos hbl] at h
          exact fetchAttempts_error_eq script rest false (idx + 2) e h
        · rw [if_neg hbl] at h
          exact absurd h (by simp)
      · rw [if_neg hw] at h
        exact fetchAttempts_error_eq script rest false (idx + 1) e h

/-- Every `ValueError` message the parser can produce is non-empty. -/
theorem renderParseError_ne_empty : ∀ e : ParseError, renderParseError e ≠ ""
  | .EmptyExpression => by decide
  | .NoKeywordsFound => by decide
  | .ExpectedToken expected got pos => by
    intro h
    have hlen := congrArg String.length h
    simp only [renderParseError, String.length_append] at hlen
    have h9 : "Expected ".length = 9 := rfl
    have h0 : "".length = 0 := rfl
    omega
  | .UnexpectedToken t v => by
    intro h
    have hlen := congrArg String.length h
    simp only [renderParseError, String.length_append] at hlen
    have h18 : "Unexpected token: ".length = 18 := rfl
    have h0 : "".length = 0 := rfl
    omega

/-! ## Claims -/

/-- C1: For every filter string that compiles successfully, the compiled
predicate evaluates a text by case-insensitive substring containment at
each keyword leaf, combined by boolean AND/OR per the grammar; in
particular `evaluate("ddr5 i ram", "DDR5 RAM 32GB") = true`,
`evaluate("ddr5 i ram", "DDR5 only") = false`,
`evaluate("ddr5 i (cl30 lub cl40)", "DDR5 CL40 kit") = true`, and
`evaluate("ddr5 i (cl30 lub cl40)", "DDR5 CL16 kit") = false`. -/
theorem C1_evaluate_semantics :
    (∀ (kw text : String),
        (KeywordExpressionNode.KeywordNode kw).evaluate text = containsCI kw text)
    ∧ (∀ (l r : KeywordExpressionNode) (text : String),
        (KeywordExpressionNode.AndNode l r).evaluate text
          = (l.evaluate text && r.evaluate text))
    ∧ (∀ (l r : KeywordExpressionNode) (text : String),
        (KeywordExpressionNode.OrNode l r).evaluate text
          = (l.evaluate text || r.evaluate text))
    ∧ (∀ (s : String) (n : KeywordExpressionNode),
        (KeywordFilter.compile s).root = some n →
        ∀ text, (KeywordFilter.compile s).matches text = n.evaluate text)
    ∧ (KeywordFilter.compile "ddr5 i ram").matches "DDR5 RAM 32GB" = true
    ∧ (KeywordFilter.compile "ddr5 i ram").matches "DDR5 only" = false
    ∧ (KeywordFilter.compile "ddr5 i (cl30 lub cl40)").matches "DDR5 CL40 kit" = true
    ∧ (KeywordFilter.compile "ddr5 i (cl30 lub cl40)").matches "DDR5 CL16 kit" = false := by
  refine ⟨fun kw text => rfl, fun l r text => rfl, fun l r text => rfl, ?_, ?_, ?_, ?_, ?_⟩
  · intro s n h text
    simp only [KeywordFilter.matches, h]
  · rw [compile_ddr5_ram]; decide
  · rw [compile_ddr5_ram]; decide
  · rw [compile_ddr5_cl]; decide
  · rw [compile_ddr5_cl]; decide

/-- Witness for C1 at `"ddr5 i ram"` / `"DDR5 RAM 32GB"`. -/
theorem C1_evaluate_semantics_witness :
    (KeywordFilter.compile "ddr5 i ram").root
        = some (.AndNode (.KeywordNode "ddr5") (.KeywordNode "ram"))
    ∧ (KeywordFilter.compile "ddr5 i ram").matches "DDR5 RAM 32GB"
        = (KeywordExpressionNode.AndNode (.KeywordNode "ddr5")
            (.KeywordNode "ram")).evaluate "DDR5 RAM 32GB" := by
  have h : (KeywordFilter.compile "ddr5 i ram").root
      = some (.AndNode (.KeywordNode "ddr5") (.KeywordNode "ram")) := by
    rw [compile_ddr5_ram]
  exact ⟨h, C1_evaluate_semantics.2.2.2.1 "ddr5 i ram" _ h "DDR5 RAM 32GB"⟩

/-- C8: For every compiled expression node and every text,
`matchedKeywords(text)` is the left-to-right concatenation, with
duplicates retained, of the matched keywords of both subtrees,
regardless of whether the parent operator is AND or OR — it reports
every leaf keyword found in the text, not only keywords logically
necessary for the match. -/
theorem C8_matched_keywords_concat :
    (∀ (l r : KeywordExpressionNode) (text : String),
        (KeywordExpressionNode.AndNode l r).get_matched_keywords text
          = l.get_matched_keywords text ++ r.get_matched_keywords text)
    ∧ (∀ (l r : KeywordExpressionNode) (text : String),
        (KeywordExpressionNode.OrNode l r).get_matched_keywords text
          = l.get_matched_keywords text ++ r.get_matched_keywords text)
    ∧ (∀ (n : KeywordExpressionNode) (text : String),
        n.get_matched_keywords text
          = n.get_keywords.filter (fun k => containsCI k text)) :=
  ⟨fun _ _ _ => rfl, fun _ _ _ => rfl, matched_keywords_eq_filter⟩

/-- C9: After every compilation of a `KeywordFilter`, exactly one of
{root node set, parse-error message set} holds, and `isValid()` returns
true exactly when the root node is set. -/
theorem C9_root_xor_error (s : String) :
    Xor' ((KeywordFilter.compile s).root.isSome = true)
      ((KeywordFilter.compile s).parse_error.isSome = true)
    ∧ ((KeywordFilter.compile s).is_valid = true
        ↔ (KeywordFilter.compile s).root.isSome = true) := by
  unfold KeywordFilter.compile
  cases parserParse s with
  | ok n => simp [KeywordFilter.is_valid, Xor']
  | error e => simp [KeywordFilter.is_valid, Xor']

/-- C10: For every successfully compiled filter and every text, if
`matches(text)` is true then `get_matched_keywords(text)` is non-empty,
and every element of `get_matched_keywords(text)` also occurs in
`get_all_keywords()`. -/
theorem C10_matched_nonempty_and_subset (s text : String)
    (h : (KeywordFilter.compile s).matches text = true) :
    (KeywordFilter.compile s).get_matched_keywords text ≠ []
    ∧ ∀ k ∈ (KeywordFilter.compile s).get_matched_keywords text,
        k ∈ (KeywordFilter.compile s).get_all_keywords := by
  cases hroot : (KeywordFilter.compile s).root with
  | none =>
    rw [KeywordFilter.matches, hroot] at h
    exact absurd h (by simp)
  | some n =>
    rw [KeywordFilter.matches, hroot] at h
    simp only [KeywordFilter.get_matched_keywords, KeywordFilter.get_all_keywords, hroot]
    refine ⟨evaluate_true_matched_ne_nil n text h, ?_⟩
    intro k hk
    rw [matched_keywords_eq_filter] at hk
    exact List.mem_of_mem_filter hk

/-- Witness for C10 at `"ddr5 i ram"` / `"DDR5 RAM 32GB"`. -/
theorem C10_matched_nonempty_and_subset_witness :
    (KeywordFilter.compile "ddr5 i ram").matches "DDR5 RAM 32GB" = true
    ∧ ((KeywordFilter.compile "ddr5 i ram").get_matched_keywords "DDR5 RAM 32GB" ≠ []
       ∧ ∀ k ∈ (KeywordFilter.compile "ddr5 i ram").get_matched_keywords "DDR5 RAM 32GB",
           k ∈ (KeywordFilter.compile "ddr5 i ram").get_all_keywords) := by
  have h : (KeywordFilter.compile "ddr5 i ram").matches "DDR5 RAM 32GB" = true := by
    rw [compile_ddr5_ram]; decide
  exact ⟨h, C10_matched_nonempty_and_subset "ddr5 i ram" "DDR5 RAM 32GB" h⟩

/-- C2 (code behavior at the failing input): the lexer breaks words only
at whitespace and parentheses, so `compile("laptop, gaming")` keeps the
comma inside the first keyword: its search terms are
`["laptop,", "gaming"]`, not the `["laptop", "gaming"]` the claim (and
the code's own "comma/space-separated list" comment) promises; the
predicate accordingly requires the substring `"laptop,"`. -/
theorem C2_comma_stays_in_keyword :
    (KeywordFilter.compile "laptop, gaming").get_search_terms = ["laptop,", "gaming"]
    ∧ (KeywordFilter.compile "laptop, gaming").get_search_terms ≠ ["laptop", "gaming"]
    ∧ ∀ text : String,
        (KeywordFilter.compile "laptop, gaming").matches text
          = (containsCI "laptop," text && containsCI "gaming" text) := by
  have h1 : (KeywordFilter.compile "laptop, gaming").get_search_terms
      = ["laptop,", "gaming"] := by
    rw [compile_laptop_gaming]
    simp +decide [KeywordFilter.get_search_terms, KeywordExpressionNode.get_keywords,
      dedupKeepFirst]
  refine ⟨h1, ?_, ?_⟩
  · rw [h1]; decide
  · intro text
    rw [compile_laptop_gaming]
    rfl

/-- A compile is invalid exactly when `parserParse` raised. -/
theorem compile_invalid_iff (s : String) :
    (KeywordFilter.compile s).is_valid = false ↔ ∃ e, parserParse s = .error e := by
  unfold KeywordFilter.compile
  cases hp : parserParse s with
  | ok n => simp [KeywordFilter.is_valid]
  | error e => simp [KeywordFilter.is_valid]

/-- C3: compile never throws upward (`KeywordFilter.compile` is a total
function whose failure is captured in the returned object): it fails
exactly when the trimmed input is empty, when legacy-mode tokenization
yields zero keyword tokens, or when the recursive-descent parser raises
on a token violating the grammar; every failed compile has
`isValid() = false` with a non-empty error message, and its `evaluate`
returns false for every text — in particular
`compile("(unclosed")` and `compile("")` fail this way. -/
theorem C3_compile_failure_characterization :
    (∀ s : String, (KeywordFilter.compile s).is_valid = false ↔
        (pyStrip s = ""
         ∨ (pyStrip s ≠ "" ∧ hasOperators (tokenize s) = false
            ∧ legacyKeywords (tokenize s) = [])
         ∨ (pyStrip s ≠ "" ∧ hasOperators (tokenize s) = true
            ∧ ∃ e, parseExpressionE (tokenize s).length (tokenize s) = .error e)))
    ∧ (∀ s : String, (KeywordFilter.compile s).is_valid = false →
        ∃ msg, (KeywordFilter.compile s).get_error = some msg ∧ msg ≠ ""
          ∧ ∀ text, (KeywordFilter.compile s).matches text = false)
    ∧ (KeywordFilter.compile "(unclosed").is_valid = false
    ∧ (KeywordFilter.compile "").is_valid = false := by
  refine ⟨?_, ?_, ?_, ?_⟩
  · intro s
    rw [compile_invalid_iff]
    constructor
    · rintro ⟨e, he⟩
      unfold parserParse at he
      by_cases hstrip : pyStrip s = ""
      · exact Or.inl hstrip
      · rw [if_neg hstrip] at he
        by_cases hops : hasOperators (tokenize s) = true
        · rw [if_pos hops] at he
          cases hpe : parseExpressionE (tokenize s).length (tokenize s) with
          | error e2 => exact Or.inr (Or.inr ⟨hstrip, hops, e2, rfl⟩)
          | ok p =>
            rw [hpe] at he
            obtain ⟨n, r⟩ := p
            exact absurd he (by simp)
        · have hops' : hasOperators (tokenize s) = false := by
            cases hb : hasOperators (tokenize s)
            · rfl
            · exact absurd hb hops
          rw [if_neg hops] at he
          cases hkw : legacyKeywords (tokenize s) with
          | nil => exact Or.inr (Or.inl ⟨hstrip, hops', rfl⟩)
          | cons k ks =>
            rw [hkw] at he
            exact absurd he (by simp)
    · rintro (hstrip | ⟨hstrip, hops, hkw⟩ | ⟨hstrip, hops, e, hpe⟩)
      · exact ⟨.EmptyExpression, by unfold parserParse; rw [if_pos hstrip]⟩
      · refine ⟨.NoKeywordsFound, ?_⟩
        unfold parserParse
        rw [if_neg hstrip, if_neg (by simp [hops]), hkw]
      · refine ⟨e, ?_⟩
        unfold parserParse
        rw [if_neg hstrip, if_pos hops, hpe]
  · intro s hinvalid
    cases hp : parserParse s with
    | ok n =>
      rw [show KeywordFilter.compile s = ⟨s, some n, none⟩ from by
        unfold KeywordFilter.compile; rw [hp]] at hinvalid
      exact absurd hinvalid (by simp [KeywordFilter.is_valid])
    | error e =>
      rw [show KeywordFilter.compile s = ⟨s, none, some (renderParseError e)⟩ from by
        unfold KeywordFilter.compile; rw [hp]]
      exact ⟨renderParseError e, rfl, renderParseError_ne_empty e, fun text => rfl⟩
  · rw [compile_unclosed]; rfl
  · rw [compile_empty]; rfl

/-- Witness for C3 at `"(unclosed"`. -/
theorem C3_compile_failure_characterization_witness :
    (KeywordFilter.compile "(unclosed").is_valid = false
    ∧ ∃ msg, (KeywordFilter.compile "(unclosed").get_error = some msg ∧ msg ≠ ""
        ∧ ∀ text, (KeywordFilter.compile "(unclosed").matches text = false :=
  ⟨C3_compile_failure_characterization.2.2.1,
   C3_compile_failure_characterization.2.1 "(unclosed"
     C3_compile_failure_characterization.2.2.1⟩

/-- The configuration of the spec's end-to-end scenario: source "A",
filter `"ddr5 i ram"`, price range [100, 500]. -/
def scenarioConfig : ScrapeConfig := ⟨["A"], "ddr5 i ram", some 100, some 500⟩

/-- The three raw listings adapter "A" returns in the scenario. -/
def scenarioListings : List ScrapeResult :=
  [⟨"A", "DDR5 RAM 16GB", some 250, "250", "u1", []⟩,
   ⟨"A", "DDR5 only", some 300, "300", "u2", []⟩,
   ⟨"A", "DDR5 RAM 64GB", some 900, "900", "u3", []⟩]

/-- Adapter oracle for the scenario: only source "A" exists. -/
def scenarioAdapters : String → Option (Except PyExc (List ScrapeResult)) :=
  fun p => if p = "A" then some (.ok scenarioListings) else none

/-- C4: In the orchestrator's per-item acceptance check, a listing whose
price is unknown always passes the price check, and a listing with a
known price is rejected exactly when that price lies outside
[priceMin, priceMax]; consequently, for the run with sources = ["A"],
filter `"ddr5 i ram"`, priceMin = 100, priceMax = 500, and raw listings
{"DDR5 RAM 16GB", 250}, {"DDR5 only", 300}, {"DDR5 RAM 64GB", 900},
exactly the first listing is accepted. -/
theorem C4_price_check_and_scenario :
    (∀ cfg : ScrapeConfig, price_check cfg none = true)
    ∧ (∀ (cfg : ScrapeConfig) (p m M : ℚ), cfg.price_min = some m →
        cfg.price_max = some M →
        (price_check cfg (some p) = true ↔ (m ≤ p ∧ p ≤ M)))
    ∧ (∀ (kf : KeywordFilter) (cfg : ScrapeConfig) (r : ScrapeResult),
        kf.matches r.title = true →
        (passes_filter kf cfg r).1 = price_check cfg r.price)
    ∧ (managerRun false scenarioAdapters scenarioConfig).queue
        = [⟨"A", "DDR5 RAM 16GB", some 250, "250", "u1", ["ddr5", "ram"]⟩]
    ∧ (managerRun false scenarioAdapters scenarioConfig).total_found = 1
    ∧ (managerRun false scenarioAdapters scenarioConfig).platform_results = [("A", 1)] := by
  have hrun : managerRun false scenarioAdapters scenarioConfig
      = runLoop false scenarioAdapters
          ⟨"ddr5 i ram", some (.AndNode (.KeywordNode "ddr5") (.KeywordNode "ram")), none⟩
          scenarioConfig ["A"] ⟨0, [], [], []⟩ := by
    unfold managerRun
    rw [show scenarioConfig.keyword_expression = "ddr5 i ram" from rfl, compile_ddr5_ram]
    rfl
  refine ⟨fun cfg => rfl, ?_, ?_, ?_, ?_, ?_⟩
  · intro cfg p m M hmin hmax
    have hb : price_check cfg (some p) = (!(decide (p < m)) && !(decide (M < p))) := by
      simp only [price_check, hmin, hmax]
      split_ifs with h1 h2
      · simp [h1]
      · simp [h1, h2]
      · simp [h1, h2]
    rw [hb]
    simp [not_lt]
  · intro kf cfg r h
    simp [passes_filter, h]
  · rw [hrun]; decide
  · rw [hrun]; decide
  · rw [hrun]; decide

/-- Witness for C4 at the scenario's bounds and third listing. -/
theorem C4_price_check_and_scenario_witness :
    (price_check scenarioConfig (some 900) = true ↔ ((100 : ℚ) ≤ 900 ∧ (900 : ℚ) ≤ 500))
    ∧ (passes_filter ⟨"ddr5", some (.KeywordNode "ddr5"), none⟩ scenarioConfig
        ⟨"A", "DDR5 only", some 300, "300", "u2", []⟩).1
      = price_check scenarioConfig (some 300) :=
  ⟨C4_price_check_and_scenario.2.1 scenarioConfig 900 100 500 rfl rfl,
   C4_price_check_and_scenario.2.2.1 ⟨"ddr5", some (.KeywordNode "ddr5"), none⟩
     scenarioConfig ⟨"A", "DDR5 only", some 300, "300", "u2", []⟩ (by decide)⟩

/-- A one-source configuration used to exercise cancellation. -/
def cancelConfig : ScrapeConfig := ⟨["Allegro"], "ddr5", none, none⟩

/-- Adapter oracle where "Allegro" succeeds with no raw results. -/
def cancelAdapters : String → Option (Except PyExc (List ScrapeResult)) :=
  fun p => if p = "Allegro" then some (.ok []) else none

/-- C5 counterexample: in a run whose cancellation token is set before
the start, the final state's mappings are both empty, so the requested
source "Allegro" appears in neither `perSourceCounts` nor
`perSourceErrors` — the claim's "every requested source identifier
appears in exactly one of the two" fails (the summary shows a dash for
it instead). -/
theorem C5_sum_and_exactly_one_counterexample :
    ¬ (sumCounts (managerRun true cancelAdapters cancelConfig).platform_results
          = (managerRun true cancelAdapters cancelConfig).total_found
       ∧ ∀ p ∈ cancelConfig.platforms,
          Xor' (p ∈ keysOf (managerRun true cancelAdapters cancelConfig).platform_results)
            (p ∈ keysOf (managerRun true cancelAdapters cancelConfig).platform_errors)) := by
  have hrun : managerRun true cancelAdapters cancelConfig = ⟨0, [], [], []⟩ := by
    unfold managerRun
    exact runLoop_cancelled _ _ _ _ _
  rintro ⟨-, hxor⟩
  have h := hxor "Allegro" (by simp [cancelConfig])
  rw [hrun] at h
  simp [Xor', keysOf] at h

/-- C5 (amended): for every run (cancellation flag constant over the
run, requested source list free of duplicates),
`sum(perSourceCounts) = totalAccepted`; when the run is not cancelled,
every requested source whose identifier is a known scraper appears in
exactly one of `perSourceCounts` / `perSourceErrors`; a cancelled run
leaves both mappings empty, reporting every source with a dash. -/
theorem C5_sum_and_exactly_one_amended (cancel : Bool)
    (adapters : String → Option (Except PyExc (List ScrapeResult)))
    (cfg : ScrapeConfig) (hnd : cfg.platforms.Nodup) :
    (sumCounts (managerRun cancel adapters cfg).platform_results
       = (managerRun cancel adapters cfg).total_found)
    ∧ (cancel = false → ∀ p ∈ cfg.platforms, (adapters p).isSome = true →
        Xor' (p ∈ keysOf (managerRun cancel adapters cfg).platform_results)
          (p ∈ keysOf (managerRun cancel adapters cfg).platform_errors))
    ∧ (cancel = true → (managerRun cancel adapters cfg).platform_results = []
        ∧ (managerRun cancel adapters cfg).platform_errors = []) := by
  cases cancel
  · refine ⟨?_, ?_, by intro h; cases h⟩
    · have h := runLoop_sum adapters (KeywordFilter.compile cfg.keyword_expression) cfg
        cfg.platforms ⟨0, [], [], []⟩ hnd (by intro p hp; simp [keysOf])
      unfold managerRun
      simpa [sumCounts] using h
    · intro _ p hp hsome
      unfold managerRun
      exact runLoop_processed adapters (KeywordFilter.compile cfg.keyword_expression) cfg
        cfg.platforms ⟨0, [], [], []⟩ p hp hnd hsome (by simp [keysOf]) (by simp [keysOf])
  · have hrun : managerRun true adapters cfg = ⟨0, [], [], []⟩ := by
      unfold managerRun
      exact runLoop_cancelled _ _ _ _ _
    refine ⟨by rw [hrun]; rfl, ?_, ?_⟩
    · intro h; cases h
    · intro _
      rw [hrun]
      exact ⟨rfl, rfl⟩

/-- Witness for C5 (amended) at a concrete uncancelled run. -/
theorem C5_sum_and_exactly_one_amended_witness :
    (sumCounts (managerRun false cancelAdapters cancelConfig).platform_results
       = (managerRun false cancelAdapters cancelConfig).total_found)
    ∧ (false = false → ∀ p ∈ cancelConfig.platforms, (cancelAdapters p).isSome = true →
        Xor' (p ∈ keysOf (managerRun false cancelAdapters cancelConfig).platform_results)
          (p ∈ keysOf (managerRun false cancelAdapters cancelConfig).platform_errors))
    ∧ (false = true → (managerRun false cancelAdapters cancelConfig).platform_results = []
        ∧ (managerRun false cancelAdapters cancelConfig).platform_errors = []) :=
  C5_sum_and_exactly_one_amended false cancelAdapters cancelConfig (by decide)

/-- Adapter oracle where "Allegro" succeeds with one raw listing. -/
def c7Adapters : String → Option (Except PyExc (List ScrapeResult)) :=
  fun p =>
    if p = "Allegro" then some (.ok [⟨"Allegro", "DDR5 RAM", some 100, "100", "u", []⟩])
    else none

/-- C7 counterexample: with the token set before the start, the run
pushes nothing (that half of the claim holds), but the summary does not
report a zero count for the requested source — `perSourceCounts` has no
entry for "Allegro" at all (the summary prints a dash). -/
theorem C7_cancelled_run_counterexample :
    (managerRun true c7Adapters cancelConfig).queue = []
    ∧ ¬ ((managerRun true c7Adapters cancelConfig).platform_results.lookup "Allegro"
          = some 0) := by
  have hrun : managerRun true c7Adapters cancelConfig = ⟨0, [], [], []⟩ := by
    unfold managerRun
    exact runLoop_cancelled _ _ _ _ _
  rw [hrun]
  exact ⟨rfl, by simp [List.lookup]⟩

/-- C7 (amended): if the cancellation token is set before a run starts,
the run pushes no listings onto the result channel, the total is zero,
both per-source mappings stay empty, and the emitted summary reports
`0 results` with a dash (no count) for every requested source. -/
theorem C7_cancelled_run_amended
    (adapters : String → Option (Except PyExc (List ScrapeResult)))
    (cfg : ScrapeConfig) :
    (managerRun true adapters cfg).queue = []
    ∧ (managerRun true adapters cfg).total_found = 0
    ∧ (managerRun true adapters cfg).platform_results = []
    ∧ (managerRun true adapters cfg).platform_errors = []
    ∧ build_summary cfg (managerRun true adapters cfg)
        = "✅ 0 results" ++ "  ("
            ++ String.intercalate " | " (cfg.platforms.map (fun p => p ++ ": —")) ++ ")" := by
  have hrun : managerRun true adapters cfg = ⟨0, [], [], []⟩ := by
    unfold managerRun
    exact runLoop_cancelled _ _ _ _ _
  rw [hrun]
  exact ⟨rfl, rfl, rfl, rfl, rfl⟩

/-- A scripted environment answering HTTP 403 to every request. -/
def all403 : Nat → NetResponse := fun _ => .response 403 "" false

/-- C6 counterexample: under the all-403 script every strategy of the
fetch machine is exhausted (the machine itself raises the dedicated
anti-bot error), yet when the DrissionPage fallback library is
available `search` raises nothing at all — it falls back and returns a
plain (here empty) result list, contradicting "the adapter's search
fails by raising a SourceUnavailable error". -/
theorem C6_exhaustion_raises_counterexample :
    fetch_with_session all403 = .error (.sourceUnavailable antiBotMessage)
    ∧ allegroSearch all403 true [] (fun _ => []) false = .ok [] := by
  have h : fetch_with_session all403 = .error (.sourceUnavailable antiBotMessage) := by
    rfl
  exact ⟨h, by simp [allegroSearch, h]⟩

/-- C6 (amended): the fetch state machine's only escaping error is the
dedicated anti-bot `RequestException` (the code's `SourceUnavailable`);
when the DrissionPage fallback is unavailable, an exhausted `search`
re-raises exactly that error — and `search` can never raise a generic
error in any configuration; the all-403 script is a concrete instance. -/
theorem C6_exhaustion_raises_amended :
    (∀ (script : Nat → NetResponse) (e : ScraperError),
        fetch_with_session script = .error e → e = .sourceUnavailable antiBotMessage)
    ∧ (∀ (script : Nat → NetResponse) (parseSoup : NetResponse → List ScrapeResult)
          (drissionResults : List ScrapeResult) (e : ScraperError),
        fetch_with_session script = .error e →
        allegroSearch script false drissionResults parseSoup false
          = .error (.sourceUnavailable antiBotMessage))
    ∧ (∀ (script : Nat → NetResponse) (drissionAvailable : Bool)
          (drissionResults : List ScrapeResult)
          (parseSoup : NetResponse → List ScrapeResult) (cancelled : Bool) (m : String),
        allegroSearch script drissionAvailable drissionResults parseSoup cancelled
          ≠ .error (.generic m))
    ∧ allegroSearch all403 false [] (fun _ => []) false
        = .error (.sourceUnavailable antiBotMessage) := by
  have hfe : ∀ (script : Nat → NetResponse) (e : ScraperError),
      fetch_with_session script = .error e → e = .sourceUnavailable antiBotMessage :=
    fun script e h => fetchAttempts_error_eq script (strategies.take MAX_RETRIES) false 0 e h
  have h403 : fetch_with_session all403 = .error (.sourceUnavailable antiBotMessage) := by
    rfl
  refine ⟨hfe, ?_, ?_, ?_⟩
  · intro script parseSoup drissionResults e h
    rw [show e = .sourceUnavailable antiBotMessage from hfe script e h] at h
    simp [allegroSearch, h]
  · intro script da dr ps c m
    cases c
    · cases hf : fetch_with_session script with
      | error e =>
        have he := hfe script e hf
        cases da <;> simp [allegroSearch, hf, he]
      | ok soup => simp [allegroSearch, hf]
    · simp [allegroSearch]
  · simp [allegroSearch, h403]

/-- Witness for C6 (amended) at the all-403 script. -/
theorem C6_exhaustion_raises_amended_witness :
    allegroSearch all403 false [] (fun _ => []) false
      = .error (.sourceUnavailable antiBotMessage) := by
  have h : fetch_with_session all403 = .error (.sourceUnavailable antiBotMessage) := by
    rfl
  exact C6_exhaustion_raises_amended.2.1 all403 (fun _ => []) []
    (.sourceUnavailable antiBotMessage) h
